import Mathlib

/-!
Verification of the lava-dnf operations core: shape handlers
(lava/lib/dnf/operations/shape_handlers.py), operations
(lava/lib/dnf/operations/operations.py) and the projection engine
(_project_dims).  Shapes are modelled as lists of naturals (axis sizes);
axis indices supplied by callers are integers, since Python allows
negative, end-relative indices.  Weight matrices are modelled as lists of
rows of rationals, which represent the numeric values exactly.
-/

namespace DnfOps

/-- Modelled from the spec: num_dims from utils/convenience.py (the file is
not part of the sources); the spec defines it as the length of the shape. -/
def num_dims (shape : List Nat) : Nat := shape.length

/-- Modelled from the spec: num_neurons from utils/convenience.py (the file
is not part of the sources); the spec defines it as the product of the
entries of the shape, with the empty product equal to 1. -/
def num_neurons (shape : List Nat) : Nat := shape.prod

/-- Modelled from the spec: num_neurons applied to a caller-supplied shape,
which in Python is an arbitrary tuple of ints (it is never validated for
positivity), hence over integers here. -/
def num_neurons_int (shape : List Int) : Int := shape.prod

/-- The Python exception classes raised by the operations core. -/
inductive PyErr
  | misconfiguredOpError
  | valueError
  | indexError
  | notImplementedError
deriving DecidableEq, Repr

instance {ε α : Type} [DecidableEq ε] [DecidableEq α] :
    DecidableEq (Except ε α) := fun a b => by
  cases a <;> cases b
  case ok.ok x y =>
    exact if h : x = y then .isTrue (by rw [h]) else .isFalse (by simp [h])
  case error.error x y =>
    exact if h : x = y then .isTrue (by rw [h]) else .isFalse (by simp [h])
  all_goals exact .isFalse (by simp)

/-- ReduceMethod enum from operations.py. -/
inductive ReduceMethod
  | SUM
  | MEAN
deriving DecidableEq, Repr

/-- Dense weight matrices, a list of rows of exact rationals. -/
abbrev QMat := List (List ℚ)

/-- Positive index computed for a possibly negative, end-relative index:
idx_positive = len + idx if idx < 0 else idx (operations.py and
shape_handlers.py use this formula verbatim in their validation loops,
and numpy indexing and np.delete normalize negative indices the same way). -/
def norm_idx (len : Nat) (idx : Int) : Int :=
  if idx < 0 then (len : Int) + idx else idx

/-- The out-of-bounds test applied after end-relative normalization:
idx_positive < 0 or idx_positive >= len. -/
def idx_out_of_range (len : Nat) (idx : Int) : Bool :=
  decide (norm_idx len idx < 0) || decide ((len : Int) ≤ norm_idx len idx)

/-- Helper for np.delete: walk the list with its running position, dropping
every element whose position appears in the (already normalized) index
list.  np.delete builds a boolean keep-mask, so repeated indices delete
only once. -/
def np_delete_aux {α : Type} : List α → List Int → Nat → List α
  | [], _, _ => []
  | x :: xs, rem, k =>
    if rem.contains (k : Int) then np_delete_aux xs rem (k + 1)
    else x :: np_delete_aux xs rem (k + 1)

/-- np.delete(xs, obj) for in-range indices: remove the elements at the
normalized positions listed in obj. -/
def np_delete_ok {α : Type} (xs : List α) (obj : List Int) : List α :=
  np_delete_aux xs (obj.map (norm_idx xs.length)) 0

/-- np.delete(xs, obj) including numpy's IndexError on an index that is out
of bounds after end-relative normalization. -/
def np_delete {α : Type} (xs : List α) (obj : List Int) :
    Except PyErr (List α) :=
  if obj.any (idx_out_of_range xs.length) then .error .indexError
  else .ok (np_delete_ok xs obj)

/-- Multi-index of a flat position in a C-ordered (row-major) tensor of the
given shape: the first axis is the most significant. -/
def unflatten : List Nat → Nat → List Nat
  | [], _ => []
  | _ :: ds, n => (n / ds.prod) :: unflatten ds (n % ds.prod)

/-- np.eye(n, m): ones on the main diagonal, zeros elsewhere. -/
def np_eye (n m : Nat) : QMat :=
  (List.range n).map fun i =>
    (List.range m).map fun j => if i = j then (1 : ℚ) else 0

/-- Scalar multiplication of a matrix (np.eye(...) * weight). -/
def mat_scale (c : ℚ) (M : QMat) : QMat :=
  M.map fun row => row.map fun x => x * c

/-- Entrywise division of a matrix by a scalar (weights / num_neurons). -/
def mat_div (M : QMat) (c : ℚ) : QMat :=
  M.map fun row => row.map fun x => x / c

/-- Every entry of the shape is at least 1 (the Shape invariant). -/
def all_pos (s : List Nat) : Bool := s.all fun x => decide (1 ≤ x)

/-- Every entry of a caller-supplied integer shape is at least 1. -/
def all_pos_int (s : List Int) : Bool := s.all fun x => decide (1 ≤ x)

/-- Number of rows of the matrix whose entry in column c is nonzero. -/
def col_nonzeros (M : QMat) (c : Nat) : Nat :=
  (M.filter fun row => decide (row.getD c 0 ≠ 0)).length

/-- Total number of nonzero entries of the matrix. -/
def total_nonzeros (M : QMat) : Nat :=
  (M.map fun row => (row.filter fun x => decide (x ≠ 0)).length).sum

/-- _project_dims from operations.py.  The tensor of shape
output_shape ++ input_shape is represented by its entries; np.moveaxis
produces a view whose axis j is axis axis_order[j] of the tensor, where
axis_order lists the moved source axes first (normalized against the
total number of axes, with numpy raising on an out-of-range or repeated
source axis) followed by all remaining axes in their original order.
The nested loops over the first smaller_num_dims view axes assign 1 to
the diagonal slices conn[a, a, ...], conn[a, b, a, b, ...] or
conn[a, b, c, a, b, c, ...]; an assignment whose index exceeds the size
of the targeted axis raises IndexError, which happens as soon as the
loop ranges are non-empty and some loop bound exceeds the size of the
corresponding target axis.  An entry of the final flattened matrix is 1
exactly when its multi-index agrees on every kept pair of view axes. -/
def project_dims (input_shape output_shape : List Nat)
    (out_axes_kept_opt in_axes_kept_opt : Option (List Int)) :
    Except PyErr QMat :=
  let n_in := num_neurons input_shape
  let n_out := num_neurons output_shape
  let d_in := num_dims input_shape
  let d_out := num_dims output_shape
  let smaller := min d_in d_out
  if smaller = 0 then
    .ok ((List.range n_out).map fun _ => (List.range n_in).map fun _ => (1 : ℚ))
  else
    let in_kept : List Int :=
      (in_axes_kept_opt.getD ((List.range d_in).map Int.ofNat)).map
        (fun a => a + (d_out : Int))
    let out_kept : List Int :=
      out_axes_kept_opt.getD ((List.range d_out).map Int.ofNat)
    let src := out_kept ++ in_kept
    let d_tot := d_out + d_in
    if src.any (idx_out_of_range d_tot) then .error .valueError
    else
      let src_n : List Nat := src.map fun a => (norm_idx d_tot a).toNat
      if ¬ src_n.Nodup then .error .valueError
      else
        let axis_order := src_n ++ (List.range d_tot).filter
          (fun a => ! src_n.contains a)
        let sizes := output_shape ++ input_shape
        let ax_size := fun j => sizes.getD (axis_order.getD j 0) 0
        if 3 < smaller then .error .notImplementedError
        else if ((List.range smaller).all fun k => decide (0 < ax_size k)) &&
                ((List.range smaller).any fun k =>
                  decide (ax_size (smaller + k) < ax_size k)) then
          .error .indexError
        else
          .ok ((List.range n_out).map fun r =>
            (List.range n_in).map fun c =>
              let f := unflatten output_shape r ++ unflatten input_shape c
              if (List.range smaller).all fun k =>
                  f.getD (axis_order.getD k 0) 0 ==
                    f.getD (axis_order.getD (smaller + k) 0) 0
              then (1 : ℚ) else 0)

/-- KeepShapeHandler.configure (shape_handlers.py) and the configure of
AbstractKeepShapeOperation (operations.py): no validation, the output
shape is the input shape. -/
def KeepShapeHandler_configure (input_shape : List Nat) :
    Except PyErr (List Nat) :=
  .ok input_shape

/-- ReduceDimsHandler.configure (shape_handlers.py); the legacy
AbstractReduceDimsOperation in operations.py performs the identical
checks in the identical order inside configure/_compute_output_shape:
a zero-dimensional input raises MisconfiguredOpError, an empty
reduce_dims raises ValueError, a reduce_dims with more entries than the
input has axes raises ValueError, an out-of-range index (after
end-relative normalization) raises IndexError; otherwise the named axes
are deleted from the input shape and an empty result becomes (1,). -/
def ReduceDimsHandler_configure (reduce_dims : List Int)
    (input_shape : List Nat) : Except PyErr (List Nat) :=
  if num_dims input_shape = 0 then .error .misconfiguredOpError
  else if reduce_dims.length = 0 then .error .valueError
  else if input_shape.length < reduce_dims.length then .error .valueError
  else if reduce_dims.any (idx_out_of_range input_shape.length) then
    .error .indexError
  else
    let out := np_delete_ok input_shape reduce_dims
    .ok (if out = [] then [1] else out)

/-- ExpandDimsHandler.configure (shape_handlers.py); the legacy
AbstractExpandDimsOperation in operations.py performs the identical
checks: an empty new_dims_shape raises ValueError, an entry smaller
than 1 raises ValueError, the new axes are appended to the input shape
(or used alone for a zero-dimensional input), and a resulting
dimensionality larger than 3 raises NotImplementedError. -/
def ExpandDimsHandler_configure (new_dims_shape : List Nat)
    (input_shape : List Nat) : Except PyErr (List Nat) :=
  if new_dims_shape.length = 0 then .error .valueError
  else if new_dims_shape.any (fun s => decide (s < 1)) then .error .valueError
  else if 3 < (if num_dims input_shape = 0 then new_dims_shape
               else input_shape ++ new_dims_shape).length then
    .error .notImplementedError
  else .ok (if num_dims input_shape = 0 then new_dims_shape
            else input_shape ++ new_dims_shape)

/-- ReshapeHandler.configure (shape_handlers.py) and the configure of
AbstractReshapeOperation (operations.py): the caller-supplied output
shape is kept unchanged, and the only check is that input and output
have the same number of elements; both shapes are arbitrary Python int
tuples, so they are integer lists here. -/
def ReshapeHandler_configure (output_shape : List Int)
    (input_shape : List Int) : Except PyErr (List Int) :=
  if num_neurons_int input_shape = num_neurons_int output_shape then
    .ok output_shape
  else .error .misconfiguredOpError

/-- ReorderHandler.configure (shape_handlers.py): an input with fewer than
2 axes raises MisconfiguredOpError, an order whose length differs from
the input dimensionality raises MisconfiguredOpError, an out-of-range
index (after end-relative normalization) raises IndexError; otherwise
the output shape is input_shape indexed by order (numpy fancy indexing
normalizes negative indices end-relatively). -/
def ReorderHandler_configure (order : List Int) (input_shape : List Nat) :
    Except PyErr (List Nat) :=
  if input_shape.length < 2 then .error .misconfiguredOpError
  else if order.length ≠ input_shape.length then .error .misconfiguredOpError
  else if order.any (idx_out_of_range input_shape.length) then
    .error .indexError
  else
    .ok (order.map fun idx =>
      input_shape.getD (norm_idx input_shape.length idx).toNat 0)

/-- Reorder.configure of operations.py: the same validation as the
handler, but the class inherits _compute_output_shape from
AbstractKeepShapeOperation, so the output shape is the input shape
unchanged. -/
def Reorder_configure (order : List Int) (input_shape : List Nat) :
    Except PyErr (List Nat) :=
  if input_shape.length < 2 then .error .misconfiguredOpError
  else if order.length ≠ input_shape.length then .error .misconfiguredOpError
  else if order.any (idx_out_of_range input_shape.length) then
    .error .indexError
  else .ok input_shape

/-- Weights._compute_weights (operations.py):
np.eye(num_neurons(output), num_neurons(input)) * weight. -/
def Weights_compute_weights (weight : ℚ) (input_shape output_shape : List Nat) :
    QMat :=
  mat_scale weight (np_eye (num_neurons output_shape)
                           (num_neurons input_shape))

/-- ReduceDims._compute_weights (operations.py): the kept input axes are
np.delete(np.arange(num_dims(input)), reduce_dims); the matrix comes
from _project_dims, and for MEAN every entry is divided by
num_neurons(input_shape). -/
def ReduceDims_compute_weights (reduce_dims : List Int)
    (reduce_method : ReduceMethod) (input_shape output_shape : List Nat) :
    Except PyErr QMat := do
  let in_axes_kept ← np_delete (List.range (num_dims input_shape)) reduce_dims
  let weights ← project_dims input_shape output_shape none
    (some (in_axes_kept.map Int.ofNat))
  match reduce_method with
  | .SUM => pure weights
  | .MEAN => pure (mat_div weights ((num_neurons input_shape : ℚ)))

/-- ExpandDims._compute_weights (operations.py): the kept output axes are
np.arange(num_dims(input)); the matrix comes from _project_dims. -/
def ExpandDims_compute_weights (input_shape output_shape : List Nat) :
    Except PyErr QMat :=
  project_dims input_shape output_shape
    (some ((List.range (num_dims input_shape)).map Int.ofNat)) none

/-- Reorder._compute_weights (operations.py): the kept output axes are the
user-supplied order; the matrix comes from _project_dims. -/
def Reorder_compute_weights (order : List Int)
    (input_shape output_shape : List Nat) : Except PyErr QMat :=
  project_dims input_shape output_shape (some order) none

/-- A configured operation instance of operations.py: the constructor
parameters together with the _input_shape and _output_shape fields set
by configure. -/
inductive OpState
  | weightsOp (weight : ℚ) (input_shape output_shape : List Nat)
  | reduceDimsOp (reduce_dims : List Int) (reduce_method : ReduceMethod)
      (input_shape output_shape : List Nat)
  | expandDimsOp (new_dims_shape : List Nat)
      (input_shape output_shape : List Nat)
  | reorderOp (order : List Int) (input_shape output_shape : List Nat)
deriving DecidableEq

/-- compute_weights of AbstractOperation (operations.py), dispatching to
the concrete _compute_weights.  The method reads the instance fields and
assigns only local variables, so the instance state it leaves behind is
rebuilt here field by field from the state it read. -/
def op_compute_weights : OpState → Except PyErr QMat × OpState
  | .weightsOp w i o =>
      (.ok (Weights_compute_weights w i o), .weightsOp w i o)
  | .reduceDimsOp rd m i o =>
      (ReduceDims_compute_weights rd m i o, .reduceDimsOp rd m i o)
  | .expandDimsOp nds i o =>
      (ExpandDims_compute_weights i o, .expandDimsOp nds i o)
  | .reorderOp ord i o =>
      (Reorder_compute_weights ord i o, .reorderOp ord i o)

/-! Helper lemmas. -/

theorem mem_of_mem_np_delete_aux {α : Type} (xs : List α) (rem : List Int)
    (k : Nat) (x : α) (h : x ∈ np_delete_aux xs rem k) : x ∈ xs := by
  induction xs generalizing k with
  | nil => simp [np_delete_aux] at h
  | cons y ys ih =>
    rw [np_delete_aux] at h
    split at h
    · exact List.mem_cons_of_mem y (ih _ h)
    · rcases List.mem_cons.mp h with h1 | h2
      · exact h1 ▸ List.mem_cons_self y ys
      · exact List.mem_cons_of_mem y (ih _ h2)

theorem mem_of_mem_np_delete_ok {α : Type} (xs : List α) (obj : List Int)
    (x : α) (h : x ∈ np_delete_ok xs obj) : x ∈ xs :=
  mem_of_mem_np_delete_aux xs _ 0 x h

theorem getD_mem {α : Type} (l : List α) (n : Nat) (d : α)
    (h : n < l.length) : l.getD n d ∈ l := by
  induction l generalizing n with
  | nil => simp at h
  | cons a t ih =>
    cases n with
    | zero => simp [List.getD]
    | succ m =>
      refine List.mem_cons_of_mem a ?_
      have := ih m (by simpa using h)
      simpa [List.getD] using this

theorem getD_map_range {β : Type} (n i : Nat) (f : Nat → β) (d : β)
    (h : i < n) : ((List.range n).map f).getD i d = f i := by
  have h1 : ((List.range n).map f)[i]? = some (f i) := by
    rw [List.getElem?_map, List.getElem?_range h]
    rfl
  simp [List.getD_eq_getElem?_getD, h1]

/-! Claim theorems. -/

/-- Claim C1: the spec states that configuring the Reorder operation on an
input shape of dimensionality at least 2 with a valid permutation-length
order yields output_shape with entries input_shape[order[i]], so (2,3,4)
with order (2,0,1) gives (4,2,3).  ReorderHandler in shape_handlers.py
does exactly this, but the Reorder operation in operations.py inherits
its output shape from AbstractKeepShapeOperation, so configuring it with
input (2,3,4) and order (2,0,1) leaves output_shape equal to (2,3,4),
contradicting the claim, the class docstring, and the handler. -/
theorem reorder_output_shape_divergence :
    Reorder_configure [2, 0, 1] [2, 3, 4] = .ok [2, 3, 4] ∧
    ReorderHandler_configure [2, 0, 1] [2, 3, 4] = .ok [4, 2, 3] ∧
    ([2, 3, 4] : List Nat) ≠ [4, 2, 3] := by
  refine ⟨by decide, by decide, by decide⟩

/-- Claim C2: the spec states that ReduceDims with SUM gives row sums
equal to the number of reduced source positions and ReduceDims with MEAN
gives row sums equal to 1.  For input shape (2,3) with reduce_dims (0,)
the SUM matrix indeed has row sums 2, but the code divides the MEAN
matrix by num_neurons(input_shape) = 6 instead of by the 2 collapsed
positions, so its row sums are 1/3, not 1.  Reducing every axis of (3,)
also diverges for SUM: the output is (1,) and the matrix is
[[1,0,0]] with row sum 1, not 3. -/
theorem reduceDims_row_sum_divergence :
    ReduceDimsHandler_configure [0] [2, 3] = .ok [3] ∧
    ReduceDims_compute_weights [0] .SUM [2, 3] [3] =
      .ok [[1, 0, 0, 1, 0, 0], [0, 1, 0, 0, 1, 0], [0, 0, 1, 0, 0, 1]] ∧
    ([[(1 : ℚ), 0, 0, 1, 0, 0], [0, 1, 0, 0, 1, 0],
      [0, 0, 1, 0, 0, 1]].map List.sum = [2, 2, 2]) ∧
    ReduceDims_compute_weights [0] .MEAN [2, 3] [3] =
      .ok (mat_div [[1, 0, 0, 1, 0, 0], [0, 1, 0, 0, 1, 0],
                    [0, 0, 1, 0, 0, 1]] ((6 : ℕ) : ℚ)) ∧
    ((mat_div [[(1 : ℚ), 0, 0, 1, 0, 0], [0, 1, 0, 0, 1, 0],
               [0, 0, 1, 0, 0, 1]] ((6 : ℕ) : ℚ)).map List.sum =
      [1/3, 1/3, 1/3]) ∧
    ((1 : ℚ)/3 ≠ 1) ∧
    ReduceDims_compute_weights [0] .SUM [3] [1] = .ok [[1, 0, 0]] ∧
    ([[(1 : ℚ), 0, 0]].map List.sum = [1]) ∧ ((1 : ℚ) ≠ 3) := by
  refine ⟨by decide, by decide, ?_, rfl, ?_, by norm_num, by decide, ?_,
    by norm_num⟩
  · norm_num [List.sum_cons]
  · simp only [mat_div, List.map_cons, List.map_nil]
    norm_num [List.sum_cons]
  · norm_num [List.sum_cons]

/-- Claim C3 counterexample: the spec states that an order containing a
repeated axis index fails with IndexOutOfRange or MisconfiguredOperation,
but neither the handler nor the operation checks for duplicates: order
(0,0) on input (2,3) has the right length and only in-range entries, so
both configurations succeed. -/
theorem reorder_repeated_index_accepted :
    ReorderHandler_configure [0, 0] [2, 3] = .ok [2, 2] ∧
    Reorder_configure [0, 0] [2, 3] = .ok [2, 3] := by
  refine ⟨by decide, by decide⟩

/-- Claim C3 as amended: for an input of dimensionality at least 2, an
order containing an index that is out of range after end-relative
normalization fails with MisconfiguredOpError or IndexError, and with
IndexError exactly when the order has the same length as the input;
repeated in-range indices are not rejected. -/
theorem reorder_invalid_index_errors (input : List Nat) (ord : List Int)
    (hdim : 2 ≤ input.length)
    (hbad : ord.any (idx_out_of_range input.length) = true) :
    (ReorderHandler_configure ord input = .error .misconfiguredOpError ∨
      ReorderHandler_configure ord input = .error .indexError) ∧
    (Reorder_configure ord input = .error .misconfiguredOpError ∨
      Reorder_configure ord input = .error .indexError) ∧
    (ord.length = input.length →
      ReorderHandler_configure ord input = .error .indexError ∧
      Reorder_configure ord input = .error .indexError) := by
  have h1 : ¬ input.length < 2 := by omega
  unfold ReorderHandler_configure Reorder_configure
  by_cases h2 : ord.length = input.length <;>
    simp [h1, h2, hbad]

/-- Witness for the amended claim C3 at input (2,3) and order (0,5). -/
theorem reorder_invalid_index_errors_witness :
    ReorderHandler_configure [0, 5] [2, 3] = .error .indexError ∧
    Reorder_configure [0, 5] [2, 3] = .error .indexError :=
  (reorder_invalid_index_errors [2, 3] [0, 5] (by decide)
    (by decide)).2.2 (by decide)

/-- Claim C4 counterexample: the spec states that for ExpandDims with
input (2,) and new_dims_shape (3,) every input unit's column of the
weight matrix has exactly num_neurons(output) = 6 nonzero entries, but
the computed 6-by-2 matrix has exactly 3 nonzero entries in column 0. -/
theorem expandDims_column_count_counterexample :
    ExpandDims_compute_weights [2] [2, 3] =
      .ok [[1, 0], [1, 0], [1, 0], [0, 1], [0, 1], [0, 1]] ∧
    col_nonzeros [[1, 0], [1, 0], [1, 0], [0, 1], [0, 1], [0, 1]] 0 = 3 ∧
    (3 : Nat) ≠ 6 := by
  refine ⟨by decide, by decide, by decide⟩

/-- Claim C4 as amended: ExpandDims with input (2,) and new_dims_shape
(3,) yields output shape (2,3), and the weight matrix has exactly
num_neurons(new_dims_shape) = 3 nonzero entries in each input unit's
column, every nonzero entry equal to 1, for a total of
num_neurons(output) = 6 nonzero entries across the matrix. -/
theorem expandDims_broadcast_structure :
    ExpandDimsHandler_configure [3] [2] = .ok [2, 3] ∧
    ExpandDims_compute_weights [2] [2, 3] =
      .ok [[1, 0], [1, 0], [1, 0], [0, 1], [0, 1], [0, 1]] ∧
    col_nonzeros [[1, 0], [1, 0], [1, 0], [0, 1], [0, 1], [0, 1]] 0 = 3 ∧
    col_nonzeros [[1, 0], [1, 0], [1, 0], [0, 1], [0, 1], [0, 1]] 1 = 3 ∧
    num_neurons [3] = 3 ∧
    (([[1, 0], [1, 0], [1, 0], [0, 1], [0, 1], [0, 1]] : QMat).all fun row =>
      row.all fun x => decide (x = 0) || decide (x = 1)) = true ∧
    total_nonzeros [[1, 0], [1, 0], [1, 0], [0, 1], [0, 1], [0, 1]] = 6 ∧
    num_neurons [2, 3] = 6 := by
  refine ⟨by decide, by decide, by decide, by decide, by decide, by decide,
    by decide, by decide⟩

/-- Claim C5 counterexample: the spec states that every successful
configuration preserves the invariant that every shape entry is at
least 1, including Reshape with a caller-supplied target shape; but the
Reshape handler checks only that the element counts match, so target
(-2,-3) with input (2,3) (both products 6) is accepted, producing an
output shape with entries smaller than 1. -/
theorem reshape_nonpositive_target_accepted :
    ReshapeHandler_configure [-2, -3] [2, 3] = .ok [-2, -3] ∧
    all_pos_int [2, 3] = true ∧ all_pos_int [-2, -3] = false := by
  refine ⟨by decide, by decide, by decide⟩

/-- Claim C5 as amended: for the Keep, ReduceDims, ExpandDims and Reorder
handlers every successful configuration on an input shape with all
entries at least 1 yields an output shape with all entries at least 1;
for Reshape the invariant holds only under the extra hypothesis that the
caller-supplied target shape itself has all entries at least 1, since
the code validates nothing beyond the element count. -/
theorem configure_preserves_positivity :
    (∀ input out, all_pos input = true →
      KeepShapeHandler_configure input = .ok out → all_pos out = true) ∧
    (∀ rd input out, all_pos input = true →
      ReduceDimsHandler_configure rd input = .ok out →
      all_pos out = true) ∧
    (∀ nds input out, all_pos input = true →
      ExpandDimsHandler_configure nds input = .ok out →
      all_pos out = true) ∧
    (∀ ord input out, all_pos input = true →
      ReorderHandler_configure ord input = .ok out →
      all_pos out = true) ∧
    (∀ target input out, all_pos_int target = true →
      ReshapeHandler_configure target input = .ok out →
      all_pos_int out = true) := by
  refine ⟨?_, ?_, ?_, ?_, ?_⟩
  · intro input out hpos h
    simp [KeepShapeHandler_configure] at h
    exact h ▸ hpos
  · intro rd input out hpos h
    unfold ReduceDimsHandler_configure at h
    split_ifs at h
    simp only [Except.ok.injEq] at h
    subst h
    simp only [all_pos, List.all_eq_true, decide_eq_true_eq] at hpos ⊢
    split_ifs with hnil
    · simp
    · intro x hx
      exact hpos x (mem_of_mem_np_delete_ok input rd x hx)
  · intro nds input out hpos h
    unfold ExpandDimsHandler_configure at h
    split_ifs at h with h1 h2 h3 h4
    all_goals
      injection h with h
      subst h
      simp only [all_pos, List.all_eq_true, decide_eq_true_eq] at hpos ⊢
      have hnds : ∀ s ∈ nds, 1 ≤ s := by
        intro s hs
        by_contra hlt
        exact h2 (List.any_eq_true.mpr ⟨s, hs,
          by simp only [decide_eq_true_eq]; omega⟩)
      intro x hx
      first
        | exact hnds x hx
        | (rcases List.mem_append.mp hx with hxa | hxb
           · exact hpos x hxa
           · exact hnds x hxb)
  · intro ord input out hpos h
    unfold ReorderHandler_configure at h
    split_ifs at h with hdim hlen hbad
    simp only [Except.ok.injEq] at h
    subst h
    simp only [all_pos, List.all_eq_true, decide_eq_true_eq] at hpos ⊢
    intro x hx
    rcases List.mem_map.mp hx with ⟨idx, hidx, hval⟩
    have hok : idx_out_of_range input.length idx = false := by
      by_contra hc
      exact hbad (List.any_eq_true.mpr ⟨idx, hidx,
        by simpa using hc⟩)
    have hrange : (norm_idx input.length idx).toNat < input.length := by
      simp only [idx_out_of_range, Bool.or_eq_false_iff,
        decide_eq_false_iff_not, not_lt, Int.not_le] at hok
      omega
    exact hval ▸ hpos _ (getD_mem input _ 0 hrange)
  · intro target input out hpos h
    unfold ReshapeHandler_configure at h
    split_ifs at h
    simp only [Except.ok.injEq] at h
    exact h ▸ hpos

/-- Witness for the amended claim C5: the ReduceDims part applied at
reduce_dims (0,) and input (2,3), whose output shape (3,) is positive. -/
theorem configure_preserves_positivity_witness : all_pos [3] = true :=
  configure_preserves_positivity.2.1 [0] [2, 3] [3] (by decide) (by decide)

/-- Claim C6: configuring Reshape succeeds exactly when the input and the
caller-supplied output shape have the same number of elements, in which
case the output shape is returned unchanged; otherwise it fails with
MisconfiguredOpError.  In particular (2,6) to (3,4) succeeds and (2,6)
to (3,5) fails. -/
theorem reshape_configure_iff_num_neurons :
    ∀ (input target : List Int),
      (ReshapeHandler_configure target input = .ok target ↔
        num_neurons_int input = num_neurons_int target) ∧
      (ReshapeHandler_configure target input =
          .error .misconfiguredOpError ↔
        num_neurons_int input ≠ num_neurons_int target) ∧
      ReshapeHandler_configure [3, 4] [2, 6] = .ok [3, 4] ∧
      ReshapeHandler_configure [3, 5] [2, 6] =
        .error .misconfiguredOpError := by
  intro input target
  refine ⟨?_, ?_, by decide, by decide⟩ <;>
    · unfold ReshapeHandler_configure
      split_ifs with h <;> simp [h]

/-- Claim C7: for a non-empty new_dims_shape with all entries at least 1,
configuring ExpandDims fails with NotImplementedError exactly when the
resulting dimensionality num_dims(input) + num_dims(new_dims_shape)
exceeds 3. -/
theorem expandDims_dimensionality_ceiling (input nds : List Nat)
    (h1 : nds ≠ []) (h2 : ∀ s ∈ nds, 1 ≤ s) :
    ExpandDimsHandler_configure nds input = .error .notImplementedError ↔
      3 < input.length + nds.length := by
  unfold ExpandDimsHandler_configure
  have e1 : ¬ (nds.length = 0) := by
    simpa [List.length_eq_zero] using h1
  have e2 : ¬ (nds.any (fun s => decide (s < 1)) = true) := by
    simp only [List.any_eq_true, decide_eq_true_eq, not_exists, not_and,
      not_lt]
    exact h2
  have e3 : (if num_dims input = 0 then nds
             else input ++ nds).length = input.length + nds.length := by
    split_ifs with h0
    · simp only [num_dims] at h0
      simp [h0]
    · simp
  rw [if_neg e1, if_neg e2, e3]
  split_ifs with h4
  · simp [h4]
  · simp [h4]

/-- Witness for claim C7: input (2,3) with new_dims_shape (4,5) gives
total dimensionality 4 and fails with NotImplementedError. -/
theorem expandDims_dimensionality_ceiling_witness :
    ExpandDimsHandler_configure [4, 5] [2, 3] =
      .error .notImplementedError :=
  (expandDims_dimensionality_ceiling [2, 3] [4, 5] (by decide)
    (by decide)).mpr (by decide)

/-- Claim C8: the Weights operation keeps the shape of the input, and its
weight matrix is the num_neurons-by-num_neurons identity scaled by the
weight parameter; in particular for weight 5/2 and shape (4,) it is
5/2 times the 4-by-4 identity. -/
theorem weights_scaled_identity (s : List Nat) (w : ℚ) :
    KeepShapeHandler_configure s = .ok s ∧
    (Weights_compute_weights w s s).length = num_neurons s ∧
    (∀ i j, i < num_neurons s → j < num_neurons s →
      ((Weights_compute_weights w s s).getD i []).getD j 0 =
        if i = j then w else 0) ∧
    Weights_compute_weights (5/2) [4] [4] =
      [[5/2, 0, 0, 0], [0, 5/2, 0, 0], [0, 0, 5/2, 0], [0, 0, 0, 5/2]] := by
  refine ⟨rfl, ?_, ?_, ?_⟩
  · simp [Weights_compute_weights, mat_scale, np_eye]
  · intro i j hi hj
    unfold Weights_compute_weights mat_scale np_eye
    rw [List.map_map]
    rw [getD_map_range _ _ _ _ hi]
    simp only [Function.comp]
    rw [List.map_map]
    rw [getD_map_range _ _ _ _ hj]
    simp only [Function.comp]
    split_ifs with h
    · exact one_mul w
    · exact zero_mul w
  · unfold Weights_compute_weights mat_scale np_eye num_neurons
    norm_num [List.range_succ]

/-- Witness for claim C8: the diagonal entry at position (2,2) of the
matrix for weight 5/2 and shape (4,). -/
theorem weights_scaled_identity_witness :
    ((Weights_compute_weights (5/2) [4] [4]).getD 2 []).getD 2 0 =
      if 2 = 2 then (5/2 : ℚ) else 0 :=
  (weights_scaled_identity [4] (5/2)).2.2.1 2 2 (by decide) (by decide)

/-- Claim C9: for input shape (5,), ReduceDims constructed with
reduce_dims -1 behaves identically to reduce_dims 0: the configurations
agree (both produce output shape (1,)) and the weight matrices agree for
both SUM and MEAN. -/
theorem reduceDims_negative_index_equivalence :
    ReduceDimsHandler_configure [-1] [5] =
      ReduceDimsHandler_configure [0] [5] ∧
    ReduceDimsHandler_configure [0] [5] = .ok [1] ∧
    ReduceDims_compute_weights [-1] .SUM [5] [1] =
      ReduceDims_compute_weights [0] .SUM [5] [1] ∧
    ReduceDims_compute_weights [0] .SUM [5] [1] =
      .ok [[1, 0, 0, 0, 0]] ∧
    ReduceDims_compute_weights [-1] .MEAN [5] [1] =
      ReduceDims_compute_weights [0] .MEAN [5] [1] := by
  refine ⟨by decide, by decide, by decide, by decide, rfl⟩

/-- Claim C10: compute_weights reads the configured state and assigns only
local variables, so the state it leaves behind is the state it was given
and a second call returns the identical matrix. -/
theorem compute_weights_idempotent (st : OpState) :
    (op_compute_weights st).2 = st ∧
    op_compute_weights ((op_compute_weights st).2) =
      op_compute_weights st := by
  cases st <;> exact ⟨rfl, rfl⟩

end DnfOps
